import Mathlib

/-!
Shallow embedding of the DeskPets behaviour engine (src/DeskPets_repo/pets.py,
src/DeskPets_repo/messaging.py and src/old/pet_demo.py).

Python floats are modelled as rationals (the literals 0.2, 0.85, 0.6, 1.5 used by
the physics become 1/5, 17/20, 3/5, 3/2); mouse coordinates and screen metrics,
integers in the source, embed into the same rational coordinate space.  The calls
to `random.choice` are modelled by an explicit index into the candidate list
(taken modulo its length) together with a Bool coin for the direction choice, so
every definition stays executable.  Frame bitmaps live in external GIF assets;
the behaviour model keeps an agent's frame dimensions constant (they are fixed
per size bucket) and `frame_animation` is represented by the piece of it the
state machine observes: the reset of the state counter.
-/

namespace DeskPets

/-- One value of the `STATES_INFO` dictionary built in `Pet.__init__`
(pets.py lines 51-59): gif path, hold count, movement speed, animation speed. -/
structure StateInfo where
  gif : String
  hold : ℚ
  movement_speed : ℚ
  speed_animation : ℚ
  deriving Repr, DecidableEq

/-- The `State` object constructed by pets.py (state.py's constructor fields as
pets.py uses them: name, gif, hold, movement_speed, speed_animation, direction,
plus the counter that `frame_animation` resets to 0). -/
structure State where
  name : String
  gif : String
  hold : ℚ
  movement_speed : ℚ
  speed_animation : ℚ
  direction : ℤ
  counter : ℕ
  deriving Repr, DecidableEq

/-- The mutable fields of a `Pet` (pets.py `Pet.__init__`) that the per-tick
behaviour reads or writes.  `lie_available` models `"lie" in color_states`
(pets.py line 171) and the `lie_*` fields the values `update_state` reads from
`PETS_DATA` when it builds the lie state (lines 172-175). -/
structure Pet where
  species : String
  states_info : List (String × StateInfo)
  x : ℚ
  y : ℚ
  width : ℚ
  height : ℚ
  screen_width : ℚ
  screen_height : ℚ
  dragging : Bool
  drag_offset : ℚ × ℚ
  drag_last_pos : Option (ℚ × ℚ)
  throw_velocity : ℚ × ℚ
  right_click_consumed : Bool
  has_main_window : Bool
  immunity : Bool
  height_lie : ℚ
  lie_duration : ℚ
  lie_available : Bool
  lie_gif : String
  lie_movement_speed : ℚ
  lie_speed_animation : ℚ
  state : State
  wall_scene_step : Option ℕ
  deriving Repr, DecidableEq

/-- The per-tick inputs `update_state` polls (pets.py lines 120-125) together
with the random draws consumed by a state transition on that tick. -/
structure Inp where
  mouse_x : ℚ
  mouse_y : ℚ
  left_down : Bool
  right_down : Bool
  choice : ℕ
  coin : Bool
  enterClimb : Bool
  deriving Repr, DecidableEq

/-- The standing exclusion list passed to `random_state` at agent creation and
after a normal cycle completion (pets.py lines 62 and 185). -/
def standingExceptions : List String :=
  ["with_ball", "wallclimb", "walldig", "wallgrab", "wallnap", "fall_from_grab"]

/-- `Pet.random_state` (pets.py lines 89-116).  The loop
`for ex in exception: if ex in keys: keys.remove(ex)` removes the first
occurrence of each excluded name, which is `List.erase`; `if not keys` restores
the full key list when the exclusions emptied it.  `random.choice(keys)` is
modelled by `keys.getD (choice % keys.length) ""`; when even the full key list
is empty, `random.choice` raises, the catch-all handler prints, and the method
returns `None` — the `none` branch of `random_state`. -/
def candidateKeys (states_info : List (String × StateInfo)) (exception : List String) :
    List String :=
  let keys0 := states_info.map Prod.fst
  let keys1 := exception.foldl (fun ks ex => ks.erase ex) keys0
  if keys1.isEmpty then keys0 else keys1

/-- The selection part of `Pet.random_state` (pets.py lines 100-113), drawing
from `candidateKeys`. -/
def random_state (states_info : List (String × StateInfo)) (exception : List String)
    (choice : ℕ) (coin : Bool) : Option State :=
  let keys := candidateKeys states_info exception
  if keys.isEmpty then none
  else
    let name := keys.getD (choice % keys.length) ""
    match states_info.lookup name with
    | some info =>
        some ⟨name, info.gif, info.hold, info.movement_speed, info.speed_animation,
              (if coin then 1 else -1), 0⟩
    | none => none

/-- `Pet._apply_throw` (pets.py lines 204-236) on the throw-relevant fields.
The entry check zeroes the velocity and reports `false` (no throw this tick);
otherwise position is advanced, velocity damped by 0.85, and each axis is
clamped to its boundary with the damped velocity inverted and scaled by 0.6.
The second x test reads the possibly already clamped x, as the source re-reads
`self.x`. -/
def applyThrow (p : Pet) : Pet × Bool :=
  if |p.throw_velocity.1| < 1/5 ∧ |p.throw_velocity.2| < 1/5 then
    ({ p with throw_velocity := (0, 0) }, false)
  else
    let x1 := p.x + p.throw_velocity.1
    let y1 := p.y + p.throw_velocity.2
    let vx1 := p.throw_velocity.1 * (17/20)
    let vy1 := p.throw_velocity.2 * (17/20)
    let max_x := p.screen_width - p.width
    let max_y := p.screen_height - p.height
    let x2 := if x1 < 0 then 0 else x1
    let vx2 := if x1 < 0 then -vx1 * (3/5) else vx1
    let x3 := if x2 > max_x then max_x else x2
    let vx3 := if x2 > max_x then -vx2 * (3/5) else vx2
    let y2 := if y1 < 0 then 0 else y1
    let vy2 := if y1 < 0 then -vy1 * (3/5) else vy1
    let y3 := if y2 > max_y then max_y else y2
    let vy3 := if y2 > max_y then -vy2 * (3/5) else vy2
    ({ p with x := x3, y := y3, throw_velocity := (vx3, vy3) }, true)

/-- The proximity test `distance < self.height_lie` of pets.py line 171, where
`distance = sqrt((x - mouse_x)^2 + (y - mouse_y)^2)` (line 164).  Squaring both
sides keeps the test inside ℚ; since the distance is nonnegative the squared
comparison together with positivity of the threshold is equivalent. -/
def lieClose (p : Pet) (mx my : ℚ) : Bool :=
  decide (0 < p.height_lie) &&
    decide ((p.x - mx) ^ 2 + (p.y - my) ^ 2 < p.height_lie ^ 2)

/-- The chained comparison of pets.py lines 126-129: the pointer lies inside the
agent's bounding box. -/
def inBounds (p : Pet) (mx my : ℚ) : Bool :=
  decide (p.x ≤ mx) && decide (mx ≤ p.x + p.width) &&
    decide (p.y ≤ my) && decide (my ≤ p.y + p.height)

/-- The part of `Pet.frame_animation` (pets.py lines 238-269) the behaviour model
observes: the frame cache is rebuilt from the state's GIF (an external asset;
the agent's frame dimensions are fixed per size bucket and kept constant here)
and the state counter is reset to 0 (line 264). -/
def frameAnimation (p : Pet) : Pet :=
  { p with state := { p.state with counter := 0 } }

/-- Modelled from the spec: `State.next` from state.py, which pets.py imports but
which is not in the source tree.  Per spec §4.2 the state counter is incremented
once per tick and the state is complete when it reaches the hold count; per
§3/§4.3 the state's movement speed moves the agent along x in the direction of
its traversal flag (y is not moved by a walking state). -/
def stateNext (p : Pet) : Pet × Bool :=
  let st := { p.state with counter := p.state.counter + 1 }
  ({ p with state := st, x := p.x + st.movement_speed * (st.direction : ℚ) },
   decide (st.hold ≤ (st.counter : ℚ)))

/-- The fixed order of the climb chain (spec §4.2). -/
def chainOrder : List String :=
  ["wallclimb", "walldig", "wallgrab", "wallnap", "fall_from_grab"]

/-- Modelled from the spec: `squirrel_climb` from squirrel_climb.py (imported by
pets.py, absent from the source tree).  Spec §4.2: with a wall scene active the
chain advances through the fixed sequence climb → dig → grab → nap →
fall-from-grab and then resets to "not climbing"; the chain bookkeeping does not
move the agent. -/
def squirrelClimb (p : Pet) : Pet :=
  match p.wall_scene_step with
  | none => p
  | some k =>
      if k + 1 < chainOrder.length then
        { p with wall_scene_step := some (k + 1),
                 state := { p.state with name := chainOrder.getD (k + 1) "", counter := 0 } }
      else
        { p with wall_scene_step := none }

/-- Modelled from the spec: `go_climb` from squirrel_climb.py (absent from the
source tree).  Spec §4.2: entry into the climb chain is probabilistic — either
the wall-climb step counter starts with the chain's first state, or a normal
random state is chosen with the standing exclusions.  Position is not changed. -/
def goClimb (p : Pet) (enter : Bool) (choice : ℕ) (coin : Bool) : Pet :=
  if enter then
    { p with wall_scene_step := some 0,
             state := { p.state with name := "wallclimb", counter := 0 } }
  else
    match random_state p.states_info standingExceptions choice coin with
    | some st => { p with state := st }
    | none => p

/-- The lateral screen-partition clamp at the end of a normal tick
(pets.py lines 190-199): `min_x = screen_width - screen_width // 4` (Python
floor division) and `max_x = screen_width - width`; each violated bound clamps
x and, unless the current state is "walldig", negates the traversal direction.
The second test reads the possibly already clamped x, as the source re-reads
`self.x`. -/
def lateralClamp (sw w : ℚ) (x : ℚ) (st : State) : ℚ × State :=
  let min_x : ℚ := sw - ((⌊sw / 4⌋ : ℤ) : ℚ)
  let max_x : ℚ := sw - w
  let r1 : ℚ × State :=
    if x < min_x then
      (min_x, if st.name ≠ "walldig" then { st with direction := -st.direction } else st)
    else (x, st)
  if r1.1 > max_x then
    (max_x, if r1.2.name ≠ "walldig" then { r1.2 with direction := -r1.2.direction } else r1.2)
  else r1

/-- `lateralClamp` applied to a pet's own fields. -/
def clampPet (p : Pet) : Pet :=
  let r := lateralClamp p.screen_width p.width p.x p.state
  { p with x := r.1, state := r.2 }

/-- The secondary-button block of `update_state` (pets.py lines 131-136): on the
first tick the button is observed down with the pointer in bounds, the press is
consumed and, when a main window is attached, its `check_messages` callback is
invoked (the returned Bool); a tick with the button up resets the consumed
flag. -/
def rightClickPhase (p : Pet) (inp : Inp) : Pet × Bool :=
  let fire := inp.right_down && inBounds p inp.mouse_x inp.mouse_y && !p.right_click_consumed
  let called := fire && p.has_main_window
  let p1 := if fire then { p with right_click_consumed := true } else p
  let p2 := if !inp.right_down then { p1 with right_click_consumed := false } else p1
  (p2, called)

/-- The drag-begin block of `update_state` (pets.py lines 138-142): primary
button down with the pointer in bounds while not already dragging records the
pointer-to-origin offset and the pointer position and zeroes the throw
velocity. -/
def beginDragPhase (p : Pet) (inp : Inp) : Pet :=
  if inp.left_down && inBounds p inp.mouse_x inp.mouse_y && !p.dragging then
    { p with dragging := true,
             drag_offset := (inp.mouse_x - p.x, inp.mouse_y - p.y),
             drag_last_pos := some (inp.mouse_x, inp.mouse_y),
             throw_velocity := (0, 0) }
  else p

/-- The drag-move block of `update_state` (pets.py lines 145-155): while the
primary button stays down the throw-velocity candidate becomes the pointer
delta since the last sample, the last sample is refreshed, and the position
tracks pointer − offset clamped to the screen. -/
def dragMove (p : Pet) (inp : Inp) : Pet :=
  let new_x := inp.mouse_x - p.drag_offset.1
  let new_y := inp.mouse_y - p.drag_offset.2
  let p1 := match p.drag_last_pos with
    | some last => { p with throw_velocity := (inp.mouse_x - last.1, inp.mouse_y - last.2) }
    | none => p
  { p1 with drag_last_pos := some (inp.mouse_x, inp.mouse_y),
            x := max 0 (min new_x (p.screen_width - p.width)),
            y := max 0 (min new_y (p.screen_height - p.height)) }

/-- The drag-release block of `update_state` (pets.py lines 156-159): dragging
ends and the last recorded pointer delta, held in `throw_velocity`, is scaled by
1.5 on each axis to become the initial throw velocity.  (The source guard
`if self.throw_velocity:` tests the truthiness of a two-element list and is
always true.) -/
def releaseDrag (p : Pet) : Pet :=
  { p with dragging := false,
           throw_velocity := (p.throw_velocity.1 * (3/2), p.throw_velocity.2 * (3/2)),
           drag_last_pos := none }

/-- `update_state` from the wall-scene check to the end (pets.py lines
164-199), run when `_apply_throw` reported no active throw: an active wall
scene runs the climb chain and ends the tick; otherwise the proximity override
may force the lie state, or the running state advances and on completion a
transition fires (climb entry for squirrels, otherwise a random state); finally
the lateral clamp runs.  The `none` transition branch models the swallowed
error path of an empty catalog (`random_state` returned `None`, the subsequent
attribute access raises and the catch-all ends the tick before the clamp); it
is unreachable when the catalog is non-empty. -/
def normalTick (p : Pet) (inp : Inp) : Pet :=
  if p.wall_scene_step.isSome then squirrelClimb p
  else if p.lie_available && lieClose p inp.mouse_x inp.mouse_y && !p.immunity then
    clampPet (frameAnimation
      { p with state := ⟨"lie", p.lie_gif, p.lie_duration, p.lie_movement_speed,
                         p.lie_speed_animation, 1, 0⟩,
               immunity := true })
  else
    let m := stateNext p
    if m.2 then
      if m.1.species = "squirrel" then
        clampPet (frameAnimation
          { goClimb m.1 inp.enterClimb inp.choice inp.coin with immunity := false })
      else
        match random_state m.1.states_info standingExceptions inp.choice inp.coin with
        | some st => clampPet (frameAnimation { m.1 with state := st, immunity := false })
        | none => { m.1 with immunity := false }
    else clampPet m.1

/-- The gate in front of `normalTick`: an active throw ends the tick at once
(pets.py lines 161-162), otherwise the tick continues on the pet `_apply_throw`
left behind. -/
def tickCore (p : Pet) (inp : Inp) : Pet :=
  let t := applyThrow p
  if t.2 then t.1 else normalTick t.1 inp

/-- `Pet.update_state` (pets.py lines 118-199): button handling, then the drag
state machine (a drag-move tick returns early; a release feeds the scaled
velocity into the rest of the tick), then `tickCore`.  The second component is
whether the secondary-click callback was invoked this tick. -/
def updateState (p : Pet) (inp : Inp) : Pet × Bool :=
  let r := rightClickPhase p inp
  let q := beginDragPhase r.1 inp
  if q.dragging then
    if inp.left_down then (dragMove q inp, r.2)
    else (tickCore (releaseDrag q) inp, r.2)
  else (tickCore q inp, r.2)

/-! ## Messaging (src/DeskPets_repo/messaging.py) -/

/-- One row of an `inbox_<user>.jsonl` file as `send_message` writes it and
`fetch_undelivered` reads it (messaging.py lines 53-98).  Timestamps are
rationals. -/
structure Msg where
  msg_id : String
  sender : String
  receiver : String
  created_at : ℚ
  text : String
  delivered : Bool
  delivered_at : Option ℚ
  deriving Repr, DecidableEq

/-- The in-place mutation of an undelivered row (messaging.py lines 87-88). -/
def markDelivered (t : ℚ) (r : Msg) : Msg :=
  { r with delivered := true, delivered_at := some t }

/-- The row loop of `fetch_undelivered` (messaging.py lines 84-93): already
delivered rows are skipped and kept as they are; every other row is marked
delivered with the current timestamp, and those whose stripped text is
non-empty are collected in order.  Returns (collected rows, rewritten file
rows). -/
def fetchLoop (t : ℚ) : List Msg → List Msg × List Msg
  | [] => ([], [])
  | r :: rs =>
      let rest := fetchLoop t rs
      if r.delivered then (rest.1, r :: rest.2)
      else
        let r1 := markDelivered t r
        (if r1.text.trim = "" then rest.1 else r1 :: rest.1, r1 :: rest.2)

/-- `fetch_undelivered` (messaging.py lines 71-98) on the file contents: an
empty file returns nothing and is left alone; otherwise the rows are processed
by `fetchLoop` and the file is rewritten with the updated rows.  (The source's
`changed` flag only skips a rewrite that would reproduce the identical
contents, so file contents are as modelled.) -/
def fetch_undelivered (t : ℚ) (rows : List Msg) : List Msg × List Msg :=
  if rows.isEmpty then ([], rows)
  else fetchLoop t rows

/-! ## Catalog loading (pets.py `Pet.__init__` and src/old/pet_demo.py) -/

/-- The per-species slice of pets_data.json that the catalog lookups touch:
`states` maps a colour variant to its state-name → gif-path table. -/
structure SpeciesData where
  states : List (String × List (String × String))
  deriving Repr, DecidableEq

/-- `PETS_DATA[species]["states"][color]` (pets.py lines 49-52): `none` exactly
when the species or the colour is absent, where the source raises KeyError. -/
def lookupSpeciesColor (data : List (String × SpeciesData)) (species color : String) :
    Option (List (String × String)) :=
  (data.lookup species).bind fun sd => sd.states.lookup color

/-- The observable outcome of `Pet.__init__`'s catalog lookup: either the
states table was assigned, or the lookup raised and the field was never set. -/
structure PetCatalogInit where
  states_map : Option (List (String × String))
  deriving Repr, DecidableEq

/-- `Pet.__init__`'s catalog lookup under the constructor's catch-all
try/except (pets.py lines 29, 49-52 and 85-87): a missing species or colour
raises KeyError inside the try, the handler prints it, and `__init__` returns
normally — the agent object exists with its catalog fields never assigned
(`states_map = none` is that half-initialised agent).  No error reaches the
caller. -/
def petInit (data : List (String × SpeciesData)) (species color : String) :
    PetCatalogInit :=
  match lookupSpeciesColor data species color with
  | some m => ⟨some m⟩
  | none => ⟨none⟩

/-- The error cases of `load_deskpets_mapping` (pet_demo.py lines 67-93) that
the catalog decides. -/
inductive LoadErr where
  | speciesNotFound
  | variantNotFound
  deriving Repr, DecidableEq

/-- The mapping object `load_deskpets_mapping` returns on success
(pet_demo.py's DeskPetsMapping dataclass, without the filesystem-backed
fields). -/
structure Mapping where
  species : String
  variant : String
  states : List (String × String)
  deriving Repr, DecidableEq

/-- `load_deskpets_mapping` (pet_demo.py lines 67-93) restricted to the catalog
lookups: a missing species or variant raises KeyError, which propagates to the
caller, so no mapping object is produced.  (The existence checks on
pets_data.json and on each asset path are filesystem-dependent and outside this
model.) -/
def load_deskpets_mapping (data : List (String × SpeciesData)) (species variant : String) :
    Except LoadErr Mapping :=
  match data.lookup species with
  | none => .error .speciesNotFound
  | some sd =>
      match sd.states.lookup variant with
      | none => .error .variantNotFound
      | some states => .ok ⟨species, variant, states⟩

/-! ## Helper lemmas -/

lemma foldl_erase_subset (exs : List String) :
    ∀ keys : List String, exs.foldl (fun ks ex => ks.erase ex) keys ⊆ keys := by
  induction exs with
  | nil => intro keys; simp [List.foldl]
  | cons e es ih =>
      intro keys
      simp only [List.foldl]
      exact (ih (keys.erase e)).trans (List.erase_subset _ _)

lemma mem_foldl_erase_of_not_mem {k : String} (exs : List String) :
    ∀ keys : List String, k ∈ keys → k ∉ exs →
      k ∈ exs.foldl (fun ks ex => ks.erase ex) keys := by
  induction exs with
  | nil => intro keys hk _; simpa using hk
  | cons e es ih =>
      intro keys hk hne
      simp only [List.foldl]
      have hkne : k ≠ e := by
        rintro rfl
        exact hne (List.mem_cons_self _ _)
      exact ih _ ((List.mem_erase_of_ne hkne).mpr hk)
        (fun h => hne (List.mem_cons_of_mem _ h))

lemma nodup_foldl_erase (exs : List String) :
    ∀ keys : List String, keys.Nodup →
      (exs.foldl (fun ks ex => ks.erase ex) keys).Nodup := by
  induction exs with
  | nil => intro keys h; simpa using h
  | cons e es ih => intro keys h; exact ih _ (h.erase e)

lemma not_mem_foldl_erase {e : String} (exs : List String) :
    ∀ keys : List String, keys.Nodup → e ∈ exs →
      e ∉ exs.foldl (fun ks ex => ks.erase ex) keys := by
  induction exs with
  | nil => intro keys _ h; simp at h
  | cons a as ih =>
      intro keys hnd he
      rcases List.mem_cons.mp he with rfl | he'
      · intro hmem
        have := foldl_erase_subset as (keys.erase e) hmem
        exact (List.Nodup.not_mem_erase hnd) this
      · exact ih _ (hnd.erase a) he'

lemma getD_mem {l : List String} (h : ¬l.isEmpty) (i : ℕ) :
    l.getD (i % l.length) "" ∈ l := by
  have hlen : 0 < l.length := by
    cases l with
    | nil => simp at h
    | cons a as => simp
  have hidx : i % l.length < l.length := Nat.mod_lt _ hlen
  rw [List.getD_eq_getElem?_getD, List.getElem?_eq_getElem hidx]
  exact List.getElem_mem _

lemma lookup_isSome_of_mem_fst {l : List (String × StateInfo)} {a : String}
    (h : a ∈ l.map Prod.fst) : ∃ b, l.lookup a = some b := by
  induction l with
  | nil => simp at h
  | cons kv rest ih =>
      obtain ⟨k, v⟩ := kv
      simp only [List.map_cons, List.mem_cons] at h
      by_cases heq : a = k
      · exact ⟨v, by simp [List.lookup, heq]⟩
      · rcases h with h1 | h2
        · exact absurd h1 heq
        · obtain ⟨b, hb⟩ := ih h2
          have hbe : (a == k) = false := beq_eq_false_iff_ne.mpr heq
          exact ⟨b, by simp [List.lookup, hbe, hb]⟩

lemma candidateKeys_subset (si : List (String × StateInfo)) (exc : List String) :
    candidateKeys si exc ⊆ si.map Prod.fst := by
  unfold candidateKeys
  by_cases h : (exc.foldl (fun ks ex => ks.erase ex) (si.map Prod.fst)).isEmpty
  · simp [h]
  · simp only [h, if_false]
    exact foldl_erase_subset exc _

lemma candidateKeys_not_isEmpty (si : List (String × StateInfo)) (exc : List String)
    (hne : si ≠ []) : ¬(candidateKeys si exc).isEmpty := by
  have hkeys0 : ¬(si.map Prod.fst).isEmpty := by
    cases si with
    | nil => exact absurd rfl hne
    | cons a b => simp
  unfold candidateKeys
  by_cases h : (exc.foldl (fun ks ex => ks.erase ex) (si.map Prod.fst)).isEmpty
  · simpa [h] using hkeys0
  · simp [h]

lemma candidateKeys_not_exc (si : List (String × StateInfo)) (exc : List String)
    (hnd : (si.map Prod.fst).Nodup) (hwit : ∃ k ∈ si.map Prod.fst, k ∉ exc) :
    ∀ x ∈ candidateKeys si exc, x ∉ exc := by
  obtain ⟨k, hk, hknot⟩ := hwit
  have hk1 : k ∈ exc.foldl (fun ks ex => ks.erase ex) (si.map Prod.fst) :=
    mem_foldl_erase_of_not_mem exc _ hk hknot
  have hne : ¬(exc.foldl (fun ks ex => ks.erase ex) (si.map Prod.fst)).isEmpty := by
    intro h
    rw [List.isEmpty_iff] at h
    simp [h] at hk1
  intro x hx hxe
  unfold candidateKeys at hx
  simp only [hne, if_false] at hx
  exact not_mem_foldl_erase exc _ hnd hxe hx

/-- The behaviour of `random_state` the claims need: with a non-empty catalog it
always returns some state whose name comes from the catalog, and whenever some
catalog name is outside the exclusion list (the catalog names being distinct,
as dictionary keys are) the returned name is not excluded. -/
lemma random_state_spec (si : List (String × StateInfo)) (exc : List String)
    (choice : ℕ) (coin : Bool) (hne : si ≠ []) (hnd : (si.map Prod.fst).Nodup) :
    ∃ st, random_state si exc choice coin = some st ∧
      st.name ∈ si.map Prod.fst ∧
      ((∃ k ∈ si.map Prod.fst, k ∉ exc) → st.name ∉ exc) := by
  have hkne := candidateKeys_not_isEmpty si exc hne
  have hmemc : (candidateKeys si exc).getD (choice % (candidateKeys si exc).length) ""
      ∈ candidateKeys si exc := getD_mem hkne _
  have hmem : (candidateKeys si exc).getD (choice % (candidateKeys si exc).length) ""
      ∈ si.map Prod.fst := candidateKeys_subset si exc hmemc
  obtain ⟨info, hinfo⟩ := lookup_isSome_of_mem_fst hmem
  refine ⟨⟨(candidateKeys si exc).getD (choice % (candidateKeys si exc).length) "",
          info.gif, info.hold, info.movement_speed, info.speed_animation,
          (if coin then 1 else -1), 0⟩, ?_, hmem, ?_⟩
  · unfold random_state
    simp only [List.getD_eq_getElem?_getD] at hinfo ⊢
    simp [hkne, hinfo]
  · intro hwit
    exact candidateKeys_not_exc si exc hnd hwit _ hmemc

lemma rightClickPhase_shape (p : Pet) (inp : Inp) :
    ∃ c, (rightClickPhase p inp).1 = { p with right_click_consumed := c } := by
  unfold rightClickPhase
  dsimp only
  split_ifs <;> exact ⟨_, rfl⟩

lemma beginDragPhase_of_dragging (p : Pet) (inp : Inp) (h : p.dragging = true) :
    beginDragPhase p inp = p := by
  unfold beginDragPhase
  simp [h]

lemma beginDragPhase_of_not_left (p : Pet) (inp : Inp) (h : inp.left_down = false) :
    beginDragPhase p inp = p := by
  unfold beginDragPhase
  simp [h]

lemma beginDragPhase_fires (p : Pet) (inp : Inp) (hl : inp.left_down = true)
    (hb : inBounds p inp.mouse_x inp.mouse_y = true) (hd : p.dragging = false) :
    beginDragPhase p inp =
      { p with dragging := true,
               drag_offset := (inp.mouse_x - p.x, inp.mouse_y - p.y),
               drag_last_pos := some (inp.mouse_x, inp.mouse_y),
               throw_velocity := (0, 0) } := by
  unfold beginDragPhase
  simp [hl, hb, hd]

lemma applyThrow_inactive (p : Pet)
    (h : |p.throw_velocity.1| < 1/5 ∧ |p.throw_velocity.2| < 1/5) :
    applyThrow p = ({ p with throw_velocity := (0, 0) }, false) := by
  unfold applyThrow
  rw [if_pos h]

lemma applyThrow_active_shape (p : Pet)
    (h : ¬(|p.throw_velocity.1| < 1/5 ∧ |p.throw_velocity.2| < 1/5)) :
    ∃ x y v, applyThrow p = ({ p with x := x, y := y, throw_velocity := v }, true) ∧
      (0 ≤ p.screen_width - p.width → 0 ≤ x ∧ x ≤ p.screen_width - p.width) ∧
      (0 ≤ p.screen_height - p.height → 0 ≤ y ∧ y ≤ p.screen_height - p.height) := by
  unfold applyThrow
  rw [if_neg h]
  dsimp only
  refine ⟨_, _, _, rfl, ?_, ?_⟩
  · intro hmax
    constructor
    · split_ifs with h1 h2 h2 <;> linarith
    · split_ifs with h1 h2 h2 <;> linarith
  · intro hmax
    constructor
    · split_ifs with h1 h2 h2 <;> linarith
    · split_ifs with h1 h2 h2 <;> linarith

lemma lateralClamp_bounds (sw w x : ℚ) (st : State) (hw : 0 ≤ w) (hws : w ≤ sw) :
    0 ≤ (lateralClamp sw w x st).1 ∧ (lateralClamp sw w x st).1 ≤ sw - w := by
  have hsw : (0 : ℚ) ≤ sw := hw.trans hws
  have hfloor : ((⌊sw / 4⌋ : ℤ) : ℚ) ≤ sw := by
    calc ((⌊sw / 4⌋ : ℤ) : ℚ) ≤ sw / 4 := Int.floor_le _
      _ ≤ sw := by linarith
  have hmin : (0 : ℚ) ≤ sw - ((⌊sw / 4⌋ : ℤ) : ℚ) := by linarith
  unfold lateralClamp
  dsimp only
  split_ifs with h1 h2 h2 <;> dsimp only <;> constructor <;> push_neg at * <;> linarith

lemma clampPet_shape (p : Pet) :
    ∃ x' st', clampPet p = { p with x := x', state := st' } ∧
      (0 ≤ p.width → p.width ≤ p.screen_width → 0 ≤ x' ∧ x' ≤ p.screen_width - p.width) := by
  refine ⟨_, _, rfl, fun hw hws => lateralClamp_bounds _ _ _ _ hw hws⟩

lemma squirrelClimb_shape (p : Pet) :
    ∃ w' st', squirrelClimb p = { p with wall_scene_step := w', state := st' } := by
  unfold squirrelClimb
  cases p.wall_scene_step with
  | none => exact ⟨_, _, rfl⟩
  | some k =>
      dsimp only
      split_ifs <;> exact ⟨_, _, rfl⟩

lemma goClimb_shape (p : Pet) (e : Bool) (c : ℕ) (coin : Bool) :
    ∃ w' st', goClimb p e c coin = { p with wall_scene_step := w', state := st' } := by
  unfold goClimb
  split_ifs
  · exact ⟨_, _, rfl⟩
  · cases random_state p.states_info standingExceptions c coin with
    | some st => exact ⟨_, _, rfl⟩
    | none => exact ⟨_, _, rfl⟩

lemma dragMove_shape (p : Pet) (inp : Inp) :
    ∃ v, dragMove p inp =
      { p with throw_velocity := v,
               drag_last_pos := some (inp.mouse_x, inp.mouse_y),
               x := max 0 (min (inp.mouse_x - p.drag_offset.1) (p.screen_width - p.width)),
               y := max 0 (min (inp.mouse_y - p.drag_offset.2) (p.screen_height - p.height)) } := by
  unfold dragMove
  cases p.drag_last_pos with
  | none => exact ⟨_, rfl⟩
  | some last => exact ⟨_, rfl⟩

lemma squirrelClimb_x (p : Pet) : (squirrelClimb p).x = p.x := by
  obtain ⟨w', st', h⟩ := squirrelClimb_shape p
  rw [h]

lemma squirrelClimb_y (p : Pet) : (squirrelClimb p).y = p.y := by
  obtain ⟨w', st', h⟩ := squirrelClimb_shape p
  rw [h]

lemma goClimb_x (p : Pet) (e : Bool) (c : ℕ) (coin : Bool) :
    (goClimb p e c coin).x = p.x := by
  obtain ⟨w', st', h⟩ := goClimb_shape p e c coin
  rw [h]

lemma goClimb_y (p : Pet) (e : Bool) (c : ℕ) (coin : Bool) :
    (goClimb p e c coin).y = p.y := by
  obtain ⟨w', st', h⟩ := goClimb_shape p e c coin
  rw [h]

lemma goClimb_width (p : Pet) (e : Bool) (c : ℕ) (coin : Bool) :
    (goClimb p e c coin).width = p.width := by
  obtain ⟨w', st', h⟩ := goClimb_shape p e c coin
  rw [h]

lemma goClimb_screen_width (p : Pet) (e : Bool) (c : ℕ) (coin : Bool) :
    (goClimb p e c coin).screen_width = p.screen_width := by
  obtain ⟨w', st', h⟩ := goClimb_shape p e c coin
  rw [h]

lemma clampPet_y (p : Pet) : (clampPet p).y = p.y := rfl

lemma clampPet_x_bounds (p : Pet) (hw : 0 ≤ p.width) (hws : p.width ≤ p.screen_width) :
    0 ≤ (clampPet p).x ∧ (clampPet p).x ≤ p.screen_width - p.width :=
  lateralClamp_bounds _ _ _ _ hw hws

lemma applyThrow_active_snd (p : Pet)
    (h : ¬(|p.throw_velocity.1| < 1/5 ∧ |p.throw_velocity.2| < 1/5)) :
    (applyThrow p).2 = true := by
  unfold applyThrow
  rw [if_neg h]

lemma applyThrow_bounds_x (p : Pet)
    (h : ¬(|p.throw_velocity.1| < 1/5 ∧ |p.throw_velocity.2| < 1/5))
    (hmax : 0 ≤ p.screen_width - p.width) :
    0 ≤ (applyThrow p).1.x ∧ (applyThrow p).1.x ≤ p.screen_width - p.width := by
  unfold applyThrow
  rw [if_neg h]
  dsimp only
  constructor
  · split_ifs with h1 h2 h2 <;> linarith
  · split_ifs with h1 h2 h2 <;> linarith

lemma applyThrow_bounds_y (p : Pet)
    (h : ¬(|p.throw_velocity.1| < 1/5 ∧ |p.throw_velocity.2| < 1/5))
    (hmax : 0 ≤ p.screen_height - p.height) :
    0 ≤ (applyThrow p).1.y ∧ (applyThrow p).1.y ≤ p.screen_height - p.height := by
  unfold applyThrow
  rw [if_neg h]
  dsimp only
  constructor
  · split_ifs with h1 h2 h2 <;> linarith
  · split_ifs with h1 h2 h2 <;> linarith

lemma normalTick_bounds (q : Pet) (inp : Inp)
    (hw : 0 ≤ q.width) (hws : q.width ≤ q.screen_width)
    (hx0 : 0 ≤ q.x) (hx1 : q.x ≤ q.screen_width - q.width)
    (hy0 : 0 ≤ q.y) (hy1 : q.y ≤ q.screen_height - q.height)
    (hcat : q.states_info ≠ []) (hnd : (q.states_info.map Prod.fst).Nodup) :
    0 ≤ (normalTick q inp).x ∧ (normalTick q inp).x ≤ q.screen_width - q.width ∧
    0 ≤ (normalTick q inp).y ∧ (normalTick q inp).y ≤ q.screen_height - q.height := by
  unfold normalTick
  split_ifs with h1 h2
  · -- wall scene: the climb bookkeeping leaves the position alone
    rw [squirrelClimb_x, squirrelClimb_y]
    exact ⟨hx0, hx1, hy0, hy1⟩
  · -- lie override: y untouched, x through the lateral clamp
    rw [clampPet_y]
    refine ⟨(clampPet_x_bounds _ ?_ ?_).1, (clampPet_x_bounds _ ?_ ?_).2, hy0, hy1⟩ <;>
        first | exact hw | exact hws
  · -- normal state advance
    dsimp only [stateNext]
    split_ifs with h3 h4
    · -- squirrel: climb entry, then the lateral clamp
      obtain ⟨w', st', hgc⟩ := goClimb_shape
        { q with state := { q.state with counter := q.state.counter + 1 },
                 x := q.x + q.state.movement_speed * (q.state.direction : ℚ) }
        inp.enterClimb inp.choice inp.coin
      rw [hgc]
      rw [clampPet_y]
      refine ⟨(clampPet_x_bounds _ ?_ ?_).1, (clampPet_x_bounds _ ?_ ?_).2, hy0, hy1⟩ <;>
        first | exact hw | exact hws
    · -- non-squirrel: random transition (the catalog is non-empty)
      obtain ⟨st, hrs, -, -⟩ := random_state_spec q.states_info standingExceptions
        inp.choice inp.coin hcat hnd
      rw [hrs]
      rw [clampPet_y]
      refine ⟨(clampPet_x_bounds _ ?_ ?_).1, (clampPet_x_bounds _ ?_ ?_).2, hy0, hy1⟩ <;>
        first | exact hw | exact hws
    · -- cycle not complete: only the lateral clamp runs
      rw [clampPet_y]
      refine ⟨(clampPet_x_bounds _ ?_ ?_).1, (clampPet_x_bounds _ ?_ ?_).2, hy0, hy1⟩ <;>
        first | exact hw | exact hws

lemma tickCore_bounds (p : Pet) (inp : Inp)
    (hw : 0 ≤ p.width) (hws : p.width ≤ p.screen_width)
    (hx0 : 0 ≤ p.x) (hx1 : p.x ≤ p.screen_width - p.width)
    (hy0 : 0 ≤ p.y) (hy1 : p.y ≤ p.screen_height - p.height)
    (hcat : p.states_info ≠ []) (hnd : (p.states_info.map Prod.fst).Nodup) :
    0 ≤ (tickCore p inp).x ∧ (tickCore p inp).x ≤ p.screen_width - p.width ∧
    0 ≤ (tickCore p inp).y ∧ (tickCore p inp).y ≤ p.screen_height - p.height := by
  unfold tickCore
  by_cases hact : |p.throw_velocity.1| < 1/5 ∧ |p.throw_velocity.2| < 1/5
  · -- no active throw: the velocity is zeroed and the normal tick runs
    have h2 : (applyThrow p).2 = false := by rw [applyThrow_inactive p hact]
    have h1 : (applyThrow p).1 = { p with throw_velocity := (0, 0) } := by
      rw [applyThrow_inactive p hact]
    dsimp only
    rw [h2, if_neg (by simp), h1]
    exact normalTick_bounds _ inp hw hws hx0 hx1 hy0 hy1 hcat hnd
  · -- active throw: `_apply_throw` clamps both axes itself
    dsimp only
    rw [if_pos (applyThrow_active_snd p hact)]
    obtain ⟨ha, hb⟩ := applyThrow_bounds_x p hact (by linarith)
    obtain ⟨hc, hd⟩ := applyThrow_bounds_y p hact (by linarith)
    exact ⟨ha, hb, hc, hd⟩

lemma beginDragPhase_not_fires (p : Pet) (inp : Inp)
    (h : (inp.left_down && inBounds p inp.mouse_x inp.mouse_y && !p.dragging) = false) :
    beginDragPhase p inp = p := by
  unfold beginDragPhase
  simp only [h]
  rfl

lemma dragMove_bounds (p : Pet) (inp : Inp)
    (hx : 0 ≤ p.screen_width - p.width) (hy : 0 ≤ p.screen_height - p.height) :
    0 ≤ (dragMove p inp).x ∧ (dragMove p inp).x ≤ p.screen_width - p.width ∧
    0 ≤ (dragMove p inp).y ∧ (dragMove p inp).y ≤ p.screen_height - p.height := by
  obtain ⟨v, h⟩ := dragMove_shape p inp
  rw [h]
  exact ⟨le_max_left _ _, max_le hx (min_le_right _ _),
         le_max_left _ _, max_le hy (min_le_right _ _)⟩

/-- C1: for every agent and every tick — drag, throw or normal state update —
the tick leaves the agent's bounding box inside the screen rectangle: afterwards
`0 ≤ x ≤ screenWidth − width` and `0 ≤ y ≤ screenHeight − height` (the
taskbar-adjusted resting height chosen at creation lies inside these bounds).
Stated as preservation: a tick never moves an in-bounds agent out of bounds,
for agents whose frames fit on the screen and whose state catalog is the
non-empty dictionary `Pet.__init__` builds. -/
theorem C1_tick_position_in_bounds (p : Pet) (inp : Inp)
    (hw : 0 ≤ p.width) (hh : 0 ≤ p.height)
    (hws : p.width ≤ p.screen_width) (hhs : p.height ≤ p.screen_height)
    (hx0 : 0 ≤ p.x) (hx1 : p.x ≤ p.screen_width - p.width)
    (hy0 : 0 ≤ p.y) (hy1 : p.y ≤ p.screen_height - p.height)
    (hcat : p.states_info ≠ []) (hnd : (p.states_info.map Prod.fst).Nodup) :
    0 ≤ (updateState p inp).1.x ∧
      (updateState p inp).1.x ≤ p.screen_width - p.width ∧
      0 ≤ (updateState p inp).1.y ∧
      (updateState p inp).1.y ≤ p.screen_height - p.height := by
  have hmx : (0 : ℚ) ≤ p.screen_width - p.width := by linarith
  have hmy : (0 : ℚ) ≤ p.screen_height - p.height := by linarith
  obtain ⟨c, hrc⟩ := rightClickPhase_shape p inp
  unfold updateState
  dsimp only
  rw [hrc]
  by_cases hd : p.dragging = true
  · -- already dragging: the begin-drag block does not fire
    rw [beginDragPhase_not_fires _ inp (by simp [hd])]
    by_cases hl : inp.left_down = true
    · rw [if_pos (by exact hd), if_pos hl]
      exact dragMove_bounds _ inp hmx hmy
    · rw [if_pos (by exact hd), if_neg hl]
      exact tickCore_bounds _ inp hw hws hx0 hx1 hy0 hy1 hcat hnd
  · -- not dragging
    rw [Bool.not_eq_true] at hd
    by_cases hl : inp.left_down = true
    · by_cases hb : inBounds { p with right_click_consumed := c } inp.mouse_x inp.mouse_y = true
      · -- a drag begins and tracks the pointer this very tick
        rw [beginDragPhase_fires _ inp hl hb (by exact hd)]
        rw [if_pos rfl, if_pos hl]
        exact dragMove_bounds _ inp hmx hmy
      · rw [beginDragPhase_not_fires _ inp (by simp [hb])]
        rw [if_neg (by simp [hd])]
        exact tickCore_bounds _ inp hw hws hx0 hx1 hy0 hy1 hcat hnd
    · rw [beginDragPhase_not_fires _ inp (by simp [hl])]
      rw [if_neg (by simp [hd])]
      exact tickCore_bounds _ inp hw hws hx0 hx1 hy0 hy1 hcat hnd

/-! ## Concrete fixtures used by witnesses and counterexamples -/

/-- A concrete agent: a 40×40 cat on a 1000×940 usable screen, resting state
"idle", in-bounds position. -/
def basePet : Pet :=
  { species := "cat",
    states_info := [("idle", ⟨"idle.gif", 8, 2, 1⟩), ("walk", ⟨"walk.gif", 8, 3, 1⟩)],
    x := 800, y := 860, width := 40, height := 40,
    screen_width := 1000, screen_height := 940,
    dragging := false, drag_offset := (0, 0), drag_last_pos := none,
    throw_velocity := (0, 0), right_click_consumed := false,
    has_main_window := true, immunity := false, height_lie := 40,
    lie_duration := 24, lie_available := true, lie_gif := "lie.gif",
    lie_movement_speed := 0, lie_speed_animation := 1,
    state := ⟨"idle", "idle.gif", 8, 2, 1, 1, 0⟩, wall_scene_step := none }

/-- A quiet tick input: pointer far away, no buttons. -/
def baseInp : Inp :=
  { mouse_x := 5, mouse_y := 5, left_down := false, right_down := false,
    choice := 0, coin := true, enterClimb := false }

/-- Witness for C1: the concrete agent satisfies every hypothesis and the tick
keeps it on screen. -/
theorem C1_tick_position_in_bounds_witness :
    0 ≤ (updateState basePet baseInp).1.x ∧
      (updateState basePet baseInp).1.x ≤ basePet.screen_width - basePet.width ∧
      0 ≤ (updateState basePet baseInp).1.y ∧
      (updateState basePet baseInp).1.y ≤ basePet.screen_height - basePet.height :=
  C1_tick_position_in_bounds basePet baseInp
    (by norm_num [basePet]) (by norm_num [basePet]) (by norm_num [basePet])
    (by norm_num [basePet]) (by norm_num [basePet]) (by norm_num [basePet])
    (by norm_num [basePet]) (by norm_num [basePet]) (by simp [basePet])
    (by simp [basePet])

/-- C2: `random_state` never returns a state whose name is in the exclusion
list unless the exclusions cover the whole catalog; when the exclusions empty
the candidate set it falls back to the full catalog, so with a non-empty
catalog (whose keys, coming from a dictionary, are distinct) it always returns
some valid state and never fails. -/
theorem C2_random_state_never_excluded (si : List (String × StateInfo))
    (exc : List String) (choice : ℕ) (coin : Bool)
    (hne : si ≠ []) (hnd : (si.map Prod.fst).Nodup) :
    ∃ st, random_state si exc choice coin = some st ∧
      st.name ∈ si.map Prod.fst ∧
      ((∃ k ∈ si.map Prod.fst, k ∉ exc) → st.name ∉ exc) :=
  random_state_spec si exc choice coin hne hnd

/-- Witness for C2 at the concrete two-state catalog with "walk" excluded. -/
theorem C2_random_state_never_excluded_witness :
    ∃ st, random_state basePet.states_info ["walk"] 0 true = some st ∧
      st.name ∈ basePet.states_info.map Prod.fst ∧
      ((∃ k ∈ basePet.states_info.map Prod.fst, k ∉ ["walk"]) → st.name ∉ ["walk"]) :=
  C2_random_state_never_excluded basePet.states_info ["walk"] 0 true
    (by simp [basePet]) (by simp [basePet])

/-! ## C3: the (10, 0) throw -/

/-- A 100×100 agent on a 1000×1000 screen at the left edge, carrying the
spec's throw velocity (10, 0). -/
def throwPet : Pet :=
  { basePet with x := 0, y := 500, width := 100, height := 100,
                 screen_width := 1000, screen_height := 1000,
                 throw_velocity := (10, 0) }

/-- The trajectory of `_apply_throw` iterated from `throwPet` with no further
input. -/
def throwSeq : ℕ → Pet
  | 0 => throwPet
  | n + 1 => (applyThrow (throwSeq n)).1

/-- One active throw tick that touches no boundary: position advances by the
velocity and the velocity is damped by 0.85. -/
lemma applyThrow_step_no_bounce (p : Pet)
    (hvx : 1/5 ≤ p.throw_velocity.1) (hvy : p.throw_velocity.2 = 0)
    (hx0 : 0 ≤ p.x) (hx1 : p.x + p.throw_velocity.1 ≤ p.screen_width - p.width)
    (hy0 : 0 ≤ p.y) (hy1 : p.y ≤ p.screen_height - p.height) :
    applyThrow p = ({ p with
      x := p.x + p.throw_velocity.1,
      throw_velocity := (p.throw_velocity.1 * (17/20), 0) }, true) := by
  have hgate : ¬(|p.throw_velocity.1| < 1/5 ∧ |p.throw_velocity.2| < 1/5) := by
    rw [abs_of_pos (by linarith)]
    rintro ⟨h, -⟩
    linarith
  unfold applyThrow
  rw [if_neg hgate]
  dsimp only
  rw [hvy]
  split_ifs with h1 h2 h3 h4 <;> try linarith
  simp [Pet.mk.injEq]

/-- Closed form of the trajectory while the throw is live: after `n ≤ 25`
ticks the velocity is `(10·0.85^n, 0)` and the x-position is the geometric
partial sum `(200/3)·(1 − 0.85^n)`. -/
lemma throwSeq_eq : ∀ n, n ≤ 25 →
    throwSeq n = { throwPet with
      x := (200/3) * (1 - (17/20 : ℚ)^n),
      throw_velocity := (10 * (17/20 : ℚ)^n, 0) } := by
  intro n
  induction n with
  | zero =>
      intro _
      show throwPet = _
      norm_num [throwPet, basePet]
  | succ n ih =>
      intro hn
      have hn24 : n ≤ 24 := by omega
      have hR0 : (0:ℚ) < (17/20)^n := by positivity
      have hR1 : ((17:ℚ)/20)^n ≤ 1 := pow_le_one₀ (by norm_num) (by norm_num)
      have hR24 : ((17:ℚ)/20)^24 ≤ (17/20)^n :=
        pow_le_pow_of_le_one (by norm_num) (by norm_num) hn24
      have h24 : (1:ℚ)/5 ≤ 10 * (17/20)^24 := by norm_num
      show (applyThrow (throwSeq n)).1 = _
      rw [ih (by omega)]
      rw [applyThrow_step_no_bounce _ (by dsimp only; linarith) rfl
        (by dsimp only; nlinarith) (by show _ ≤ (1000:ℚ) - 100; dsimp only; nlinarith)
        (by show (0:ℚ) ≤ 500; norm_num) (by show (500:ℚ) ≤ 1000 - 100; norm_num)]
      simp only [Pet.mk.injEq, and_true, true_and]
      constructor
      · rw [pow_succ]; ring_nf
      · rw [pow_succ]; ring_nf

/-- C3: starting from throw velocity (10, 0) with no further input, each live
throw tick strictly shrinks the x-velocity magnitude (the magnitude of the
velocity, its y-component being 0 throughout); no tick before the 25th is below
the 0.2 threshold, after 25 = ⌈log(0.2/10)/log(0.85)⌉ ticks both axis
magnitudes are below 0.2, and on that first sub-threshold tick `_apply_throw`
zeroes the velocity to exactly (0, 0) and reports that throw physics no longer
apply. -/
theorem C3_throw_damping_terminates :
    (∀ n, n < 25 →
       |(throwSeq (n+1)).throw_velocity.1| < |(throwSeq n).throw_velocity.1| ∧
       ¬(|(throwSeq n).throw_velocity.1| < 1/5 ∧ |(throwSeq n).throw_velocity.2| < 1/5)) ∧
    (|(throwSeq 25).throw_velocity.1| < 1/5 ∧ |(throwSeq 25).throw_velocity.2| < 1/5) ∧
    (applyThrow (throwSeq 25)).2 = false ∧
    (throwSeq 26).throw_velocity = (0, 0) := by
  have hv : ∀ n, n ≤ 25 → (throwSeq n).throw_velocity = (10 * (17/20 : ℚ)^n, 0) := by
    intro n hn
    rw [throwSeq_eq n hn]
  have h25 : |(throwSeq 25).throw_velocity.1| < 1/5 ∧ |(throwSeq 25).throw_velocity.2| < 1/5 := by
    rw [hv 25 le_rfl]
    constructor
    · rw [abs_of_pos (by positivity)]
      norm_num
    · norm_num
  refine ⟨?_, h25, ?_, ?_⟩
  · intro n hn
    have hR0 : (0:ℚ) < (17/20)^n := by positivity
    have hR24 : ((17:ℚ)/20)^24 ≤ (17/20)^n :=
      pow_le_pow_of_le_one (by norm_num) (by norm_num) (by omega)
    have h24 : (1:ℚ)/5 ≤ 10 * (17/20)^24 := by norm_num
    rw [hv n (by omega), hv (n+1) (by omega)]
    dsimp only
    constructor
    · rw [abs_of_pos (by positivity), abs_of_pos (by positivity), pow_succ]
      nlinarith
    · rintro ⟨h, -⟩
      rw [abs_of_pos (by positivity)] at h
      nlinarith
  · rw [applyThrow_inactive _ h25]
  · rw [show (26 : ℕ) = 25 + 1 from rfl, throwSeq]
    rw [applyThrow_inactive _ h25]

/-- Witness for C3: the strict-decrease clause applied at the third tick. -/
theorem C3_throw_damping_terminates_witness :
    |(throwSeq 4).throw_velocity.1| < |(throwSeq 3).throw_velocity.1| :=
  (C3_throw_damping_terminates.1 3 (by norm_num)).1

/-- C4: on a throw tick whose position update leaves the screen on some axis,
`_apply_throw` clamps that axis to the exact violated boundary (0 or the
max coordinate, no overshoot) and replaces that axis's velocity by exactly
−0.6 times its current (already damped) value. -/
theorem C4_boundary_bounce (p : Pet)
    (hact : ¬(|p.throw_velocity.1| < 1/5 ∧ |p.throw_velocity.2| < 1/5))
    (hmx : 0 ≤ p.screen_width - p.width) (hmy : 0 ≤ p.screen_height - p.height) :
    (p.x + p.throw_velocity.1 < 0 →
       (applyThrow p).1.x = 0 ∧
       (applyThrow p).1.throw_velocity.1 = -(p.throw_velocity.1 * (17/20)) * (3/5)) ∧
    (p.x + p.throw_velocity.1 > p.screen_width - p.width →
       (applyThrow p).1.x = p.screen_width - p.width ∧
       (applyThrow p).1.throw_velocity.1 = -(p.throw_velocity.1 * (17/20)) * (3/5)) ∧
    (p.y + p.throw_velocity.2 < 0 →
       (applyThrow p).1.y = 0 ∧
       (applyThrow p).1.throw_velocity.2 = -(p.throw_velocity.2 * (17/20)) * (3/5)) ∧
    (p.y + p.throw_velocity.2 > p.screen_height - p.height →
       (applyThrow p).1.y = p.screen_height - p.height ∧
       (applyThrow p).1.throw_velocity.2 = -(p.throw_velocity.2 * (17/20)) * (3/5)) := by
  unfold applyThrow
  rw [if_neg hact]
  dsimp only
  refine ⟨?_, ?_, ?_, ?_⟩ <;> intro h
  · -- left wall: x clamps to 0, the second x test cannot fire
    simp only [if_pos h]
    simp only [if_neg (show ¬((0:ℚ) > p.screen_width - p.width) by linarith)]
    exact ⟨trivial, trivial⟩
  · -- right wall: the first x test cannot have fired
    simp only [if_neg (show ¬(p.x + p.throw_velocity.1 < 0) by linarith)]
    simp only [if_pos h]
    exact ⟨trivial, trivial⟩
  · -- top: y clamps to 0, the second y test cannot fire
    simp only [if_pos h]
    simp only [if_neg (show ¬((0:ℚ) > p.screen_height - p.height) by linarith)]
    exact ⟨trivial, trivial⟩
  · -- bottom: the first y test cannot have fired
    simp only [if_neg (show ¬(p.y + p.throw_velocity.2 < 0) by linarith)]
    simp only [if_pos h]
    exact ⟨trivial, trivial⟩

/-- Witness for C4: a pet one pixel from the left edge thrown left with
velocity −5 lands exactly on x = 0 with velocity −(−5·0.85)·0.6 = 51/20. -/
theorem C4_boundary_bounce_witness :
    (applyThrow { basePet with x := 1, throw_velocity := (-5, 0) }).1.x = 0 ∧
    (applyThrow { basePet with x := 1, throw_velocity := (-5, 0) }).1.throw_velocity.1 =
      -((-5 : ℚ) * (17/20)) * (3/5) :=
  (C4_boundary_bounce { basePet with x := 1, throw_velocity := (-5, 0) }
      (by norm_num [basePet]) (by norm_num [basePet]) (by norm_num [basePet])).1
    (by norm_num [basePet])

/-! ## C5: the proximity (lie) override -/

lemma clampPet_state_name (p : Pet) : (clampPet p).state.name = p.state.name := by
  unfold clampPet lateralClamp
  dsimp only
  split_ifs <;> rfl

lemma applyThrow_fst_state (p : Pet) : (applyThrow p).1.state = p.state := by
  unfold applyThrow
  dsimp only
  split_ifs <;> rfl

lemma applyThrow_fst_immunity (p : Pet) : (applyThrow p).1.immunity = p.immunity := by
  unfold applyThrow
  dsimp only
  split_ifs <;> rfl

lemma dragMove_state (p : Pet) (inp : Inp) : (dragMove p inp).state = p.state := by
  obtain ⟨v, h⟩ := dragMove_shape p inp
  rw [h]

lemma dragMove_immunity (p : Pet) (inp : Inp) : (dragMove p inp).immunity = p.immunity := by
  obtain ⟨v, h⟩ := dragMove_shape p inp
  rw [h]

/-- A squirrel one step into the wall-climb chain, otherwise identical to
`basePet`. -/
def scenePet : Pet :=
  { basePet with species := "squirrel", wall_scene_step := some 0 }

/-- A tick input with the pointer one pixel into `scenePet`'s box (distance
√2 < 40) and no buttons. -/
def sceneInp : Inp :=
  { mouse_x := 801, mouse_y := 861, left_down := false, right_down := false,
    choice := 0, coin := true, enterClimb := false }

/-- `basePet` without a lie state in its catalog. -/
def noLiePet : Pet :=
  { basePet with lie_available := false }

lemma inBounds_set_consumed (p : Pet) (c : Bool) (mx my : ℚ) :
    inBounds { p with right_click_consumed := c } mx my = inBounds p mx my := rfl

/-- Counterexample to C5 as stated, in two parts.  First, an agent with an
active wall-climb scene is within the lie threshold with immunity false, is
not dragged and has no active throw, yet the next tick does not force the lie
state and does not set immunity — the wall-scene branch (pets.py lines
166-168) returns before the proximity check.  Second, an agent whose catalog
has no lie state, under the same proximity conditions with no wall scene
either, is also not forced to lie — the override is guarded by
`"lie" in color_states` (pets.py line 171). -/
theorem C5_lie_override_counterexample :
    (scenePet.dragging = false ∧ scenePet.immunity = false ∧
     scenePet.lie_available = true ∧ scenePet.throw_velocity = (0, 0) ∧
     lieClose scenePet sceneInp.mouse_x sceneInp.mouse_y = true ∧
     sceneInp.left_down = false ∧
     (updateState scenePet sceneInp).1.state.name = "walldig" ∧
     (updateState scenePet sceneInp).1.immunity = false) ∧
    (noLiePet.dragging = false ∧ noLiePet.immunity = false ∧
     noLiePet.wall_scene_step = none ∧ noLiePet.throw_velocity = (0, 0) ∧
     lieClose noLiePet sceneInp.mouse_x sceneInp.mouse_y = true ∧
     (updateState noLiePet sceneInp).1.state.name = "idle" ∧
     (updateState noLiePet sceneInp).1.immunity = false) := by
  refine ⟨⟨rfl, rfl, rfl, rfl, ?_, rfl, ?_, ?_⟩, ⟨rfl, rfl, rfl, rfl, ?_, ?_, ?_⟩⟩
  · norm_num [lieClose, scenePet, basePet, sceneInp]
  · norm_num [updateState, rightClickPhase, beginDragPhase, inBounds, tickCore,
      applyThrow, normalTick, squirrelClimb, chainOrder, scenePet, basePet, sceneInp]
  · norm_num [updateState, rightClickPhase, beginDragPhase, inBounds, tickCore,
      applyThrow, normalTick, squirrelClimb, chainOrder, scenePet, basePet, sceneInp]
  · norm_num [lieClose, noLiePet, basePet, sceneInp]
  · norm_num [updateState, rightClickPhase, beginDragPhase, inBounds, tickCore,
      applyThrow, normalTick, stateNext, clampPet, lateralClamp, frameAnimation,
      lieClose, noLiePet, basePet, sceneInp]
  · norm_num [updateState, rightClickPhase, beginDragPhase, inBounds, tickCore,
      applyThrow, normalTick, stateNext, clampPet, lateralClamp, frameAnimation,
      lieClose, noLiePet, basePet, sceneInp]

/-- C5 (amended: the agent must also have a lie state in its catalog and no
active wall-climb scene — both preempt the override, as the counterexample
shows): an agent with a lie state in its catalog, within the lie threshold of
the pointer, with immunity false, not dragged and with no drag beginning this
tick (the primary button is not down with the pointer inside its bounds), with
no active throw and no active wall scene, is forced into the lie state with
immunity set on the very next tick, regardless of its state counter; while a
drag or a throw is active the override does not fire (state and immunity are
untouched). -/
theorem C5_lie_override (p : Pet) (inp : Inp) :
    (p.dragging = false →
     (inp.left_down && inBounds p inp.mouse_x inp.mouse_y) = false →
     |p.throw_velocity.1| < 1/5 → |p.throw_velocity.2| < 1/5 →
     p.wall_scene_step = none → p.lie_available = true →
     lieClose p inp.mouse_x inp.mouse_y = true → p.immunity = false →
       (updateState p inp).1.state.name = "lie" ∧ (updateState p inp).1.immunity = true) ∧
    (p.dragging = true → inp.left_down = true →
       (updateState p inp).1.state = p.state ∧
       (updateState p inp).1.immunity = p.immunity) ∧
    (p.dragging = false →
     (inp.left_down && inBounds p inp.mouse_x inp.mouse_y) = false →
     ¬(|p.throw_velocity.1| < 1/5 ∧ |p.throw_velocity.2| < 1/5) →
       (updateState p inp).1.state = p.state ∧
       (updateState p inp).1.immunity = p.immunity) := by
  obtain ⟨c, hrc⟩ := rightClickPhase_shape p inp
  refine ⟨?_, ?_, ?_⟩
  · intro hd hnb hv1 hv2 hwall hla hcl him
    have hnb' : (inp.left_down &&
        inBounds { p with right_click_consumed := c } inp.mouse_x inp.mouse_y) = false := by
      rw [inBounds_set_consumed]
      exact hnb
    unfold updateState
    dsimp only
    rw [hrc, beginDragPhase_not_fires _ inp (by simp [hnb'])]
    rw [if_neg (by simp [hd])]
    unfold tickCore
    dsimp only
    rw [applyThrow_inactive { p with right_click_consumed := c } ⟨hv1, hv2⟩]
    rw [if_neg (by simp)]
    unfold normalTick
    rw [if_neg (by simp [hwall])]
    rw [if_pos (show _ = true by
      show (p.lie_available && lieClose p inp.mouse_x inp.mouse_y && !p.immunity) = true
      rw [hla, hcl, him]
      rfl)]
    rw [clampPet_state_name]
    exact ⟨rfl, rfl⟩
  · intro hd hl
    unfold updateState
    dsimp only
    rw [hrc, beginDragPhase_not_fires _ inp (by simp [hd])]
    rw [if_pos (by simp [hd]), if_pos hl]
    rw [dragMove_state, dragMove_immunity]
    exact ⟨rfl, rfl⟩
  · intro hd hnb hact
    have hnb' : (inp.left_down &&
        inBounds { p with right_click_consumed := c } inp.mouse_x inp.mouse_y) = false := by
      rw [inBounds_set_consumed]
      exact hnb
    unfold updateState
    dsimp only
    rw [hrc, beginDragPhase_not_fires _ inp (by simp [hnb'])]
    rw [if_neg (by simp [hd])]
    unfold tickCore
    dsimp only
    rw [if_pos (applyThrow_active_snd { p with right_click_consumed := c } hact)]
    rw [applyThrow_fst_state, applyThrow_fst_immunity]
    exact ⟨rfl, rfl⟩

/-- Witness for C5 (amended), in the shape the hypothesis is there for: the
primary button is down but the pointer, at (799, 860), is outside `basePet`'s
box (which starts at x = 800) while still within the lie threshold (distance
1 < 40), so no drag begins and the tick forces the lie state with immunity
set. -/
theorem C5_lie_override_witness :
    (updateState basePet
      { sceneInp with mouse_x := 799, mouse_y := 860, left_down := true }).1.state.name =
      "lie" ∧
    (updateState basePet
      { sceneInp with mouse_x := 799, mouse_y := 860, left_down := true }).1.immunity = true :=
  (C5_lie_override basePet
      { sceneInp with mouse_x := 799, mouse_y := 860, left_down := true }).1
    rfl (by norm_num [inBounds, basePet]) (by norm_num [basePet]) (by norm_num [basePet])
    rfl rfl (by norm_num [lieClose, basePet]) rfl

/-! ## C6: drag capture, tracking and release -/

lemma dragMove_velocity (p : Pet) (inp : Inp) (lp : ℚ × ℚ)
    (h : p.drag_last_pos = some lp) :
    (dragMove p inp).throw_velocity = (inp.mouse_x - lp.1, inp.mouse_y - lp.2) := by
  unfold dragMove
  rw [h]

/-- C6: beginning a drag (primary down, pointer in the box, not already
dragging) records the pointer-to-origin offset and the pointer position and
zeroes the throw velocity (the same tick's tracking step leaves it at the zero
delta); while dragging, the position is pointer − offset clamped to the screen
and the velocity candidate is the per-tick pointer delta; on release the tick
continues with the throw velocity set to exactly 1.5 × the last recorded
delta. -/
theorem C6_drag_lifecycle (p : Pet) (inp : Inp) :
    (inp.left_down = true → inBounds p inp.mouse_x inp.mouse_y = true → p.dragging = false →
       (updateState p inp).1.dragging = true ∧
       (updateState p inp).1.drag_offset = (inp.mouse_x - p.x, inp.mouse_y - p.y) ∧
       (updateState p inp).1.drag_last_pos = some (inp.mouse_x, inp.mouse_y) ∧
       (updateState p inp).1.throw_velocity = (0, 0)) ∧
    (∀ lp, p.dragging = true → inp.left_down = true → p.drag_last_pos = some lp →
       (updateState p inp).1.x =
         max 0 (min (inp.mouse_x - p.drag_offset.1) (p.screen_width - p.width)) ∧
       (updateState p inp).1.y =
         max 0 (min (inp.mouse_y - p.drag_offset.2) (p.screen_height - p.height)) ∧
       (updateState p inp).1.throw_velocity = (inp.mouse_x - lp.1, inp.mouse_y - lp.2)) ∧
    (p.dragging = true → inp.left_down = false →
       (updateState p inp).1 = tickCore (releaseDrag (rightClickPhase p inp).1) inp ∧
       (releaseDrag (rightClickPhase p inp).1).throw_velocity =
         (p.throw_velocity.1 * (3/2), p.throw_velocity.2 * (3/2))) := by
  obtain ⟨c, hrc⟩ := rightClickPhase_shape p inp
  refine ⟨?_, ?_, ?_⟩
  · intro hl hb hd
    unfold updateState
    dsimp only
    rw [hrc, beginDragPhase_fires { p with right_click_consumed := c } inp hl hb hd]
    rw [if_pos rfl, if_pos hl]
    obtain ⟨v, hdm⟩ := dragMove_shape _ inp
    rw [dragMove_velocity _ inp (inp.mouse_x, inp.mouse_y) rfl]
    rw [hdm]
    refine ⟨rfl, rfl, rfl, ?_⟩
    simp
  · intro lp hd hl hlp
    unfold updateState
    dsimp only
    rw [hrc, beginDragPhase_not_fires _ inp (by simp [hd])]
    rw [if_pos (by simp [hd]), if_pos hl]
    rw [dragMove_velocity { p with right_click_consumed := c } inp lp hlp]
    obtain ⟨v, hdm⟩ := dragMove_shape _ inp
    rw [hdm]
    exact ⟨rfl, rfl, rfl⟩
  · intro hd hl
    unfold updateState
    dsimp only
    rw [hrc, beginDragPhase_not_fires _ inp (by simp [hd])]
    rw [if_pos (by simp [hd]), if_neg (by simp [hl])]
    exact ⟨rfl, rfl⟩

/-- Witness for C6: releasing a drag with last recorded delta (4, 2) hands the
rest of the tick a throw velocity of exactly (6, 3). -/
theorem C6_drag_lifecycle_witness :
    (updateState { basePet with dragging := true, drag_last_pos := some (810, 870),
                                drag_offset := (10, 10), throw_velocity := (4, 2) } baseInp).1 =
      tickCore (releaseDrag (rightClickPhase
        { basePet with dragging := true, drag_last_pos := some (810, 870),
                       drag_offset := (10, 10), throw_velocity := (4, 2) } baseInp).1) baseInp ∧
    (releaseDrag (rightClickPhase
        { basePet with dragging := true, drag_last_pos := some (810, 870),
                       drag_offset := (10, 10), throw_velocity := (4, 2) } baseInp).1).throw_velocity =
      ((4 : ℚ) * (3/2), (2 : ℚ) * (3/2)) :=
  (C6_drag_lifecycle
    { basePet with dragging := true, drag_last_pos := some (810, 870),
                   drag_offset := (10, 10), throw_velocity := (4, 2) } baseInp).2.2 rfl rfl

/-! ## C7: the lateral screen-partition clamp -/

/-- C7: after physics resolves on a normal tick the lateral clamp runs
(`clampPet`, the final phase of every non-drag, non-throw, non-wall tick of
`updateState`): x below the left inset `screenWidth − screenWidth // 4` or
above `screenWidth − width` is clamped to that boundary and the traversal
direction flag is negated — except in the boundary-anchored "walldig" state,
where x is clamped but the direction is left alone.  The hypothesis orders the
two boundaries (the agent is at most a quarter screen wide), which is what
makes the clamp land exactly on the violated boundary. -/
theorem C7_lateral_partition (p : Pet)
    (hmm : p.screen_width - ((⌊p.screen_width / 4⌋ : ℤ) : ℚ) ≤ p.screen_width - p.width) :
    (p.x < p.screen_width - ((⌊p.screen_width / 4⌋ : ℤ) : ℚ) → p.state.name ≠ "walldig" →
       (clampPet p).x = p.screen_width - ((⌊p.screen_width / 4⌋ : ℤ) : ℚ) ∧
       (clampPet p).state = { p.state with direction := -p.state.direction }) ∧
    (p.x < p.screen_width - ((⌊p.screen_width / 4⌋ : ℤ) : ℚ) → p.state.name = "walldig" →
       (clampPet p).x = p.screen_width - ((⌊p.screen_width / 4⌋ : ℤ) : ℚ) ∧
       (clampPet p).state = p.state) ∧
    (p.x > p.screen_width - p.width → p.state.name ≠ "walldig" →
       (clampPet p).x = p.screen_width - p.width ∧
       (clampPet p).state = { p.state with direction := -p.state.direction }) ∧
    (p.x > p.screen_width - p.width → p.state.name = "walldig" →
       (clampPet p).x = p.screen_width - p.width ∧
       (clampPet p).state = p.state) := by
  unfold clampPet lateralClamp
  dsimp only
  refine ⟨?_, ?_, ?_, ?_⟩
  · intro h hn
    simp only [if_pos h, if_pos hn]
    rw [if_neg (not_lt.mpr hmm)]
    exact ⟨rfl, rfl⟩
  · intro h hn
    simp only [if_pos h, if_neg (show ¬p.state.name ≠ "walldig" by simp [hn])]
    rw [if_neg (not_lt.mpr hmm)]
    exact ⟨rfl, rfl⟩
  · intro h hn
    simp only [if_neg (show ¬(p.x < p.screen_width - ((⌊p.screen_width / 4⌋ : ℤ) : ℚ)) by
      push_neg
      linarith)]
    simp only [if_pos h, if_pos hn]
    exact ⟨trivial, trivial⟩
  · intro h hn
    simp only [if_neg (show ¬(p.x < p.screen_width - ((⌊p.screen_width / 4⌋ : ℤ) : ℚ)) by
      push_neg
      linarith)]
    simp only [if_pos h, if_neg (show ¬p.state.name ≠ "walldig" by simp [hn])]
    exact ⟨trivial, trivial⟩

/-- Witness for C7: a 40-wide pet at x = 100 on a 1000-wide screen is clamped
to the left inset 1000 − 250 = 750 and its direction is flipped. -/
theorem C7_lateral_partition_witness :
    (clampPet { basePet with x := 100 }).x =
      basePet.screen_width - ((⌊basePet.screen_width / 4⌋ : ℤ) : ℚ) ∧
    (clampPet { basePet with x := 100 }).state =
      { basePet.state with direction := -basePet.state.direction } :=
  (C7_lateral_partition { basePet with x := 100 }
      (by norm_num [basePet])).1
    (by norm_num [basePet]) (by simp [basePet])

/-! ## C8: catalog lookup failure at agent creation -/

/-- Counterexample to C8 as stated: for a species/colour pair absent from the
catalog, `Pet.__init__` does not propagate any error — its catch-all handler
(pets.py lines 85-87) prints the KeyError and the constructor returns normally,
yielding a half-initialised agent (its states table was never assigned).  Here,
with an empty catalog and the pair ("cat", "black"), the lookup fails yet
construction produces the half-initialised agent rather than raising. -/
theorem C8_config_error_counterexample :
    lookupSpeciesColor [] "cat" "black" = none ∧
    petInit [] "cat" "black" = ⟨none⟩ :=
  ⟨rfl, rfl⟩

/-- C8 (amended): a species/colour pair absent from the catalog makes the
lookup fail, but only `load_deskpets_mapping` (old/pet_demo.py) propagates the
error to its caller so that no mapping object is produced; in pets.py,
`Pet.__init__` catches the KeyError, logs it, and yields a half-initialised
agent whose states table was never assigned. -/
theorem C8_config_error (data : List (String × SpeciesData)) (species color : String)
    (h : lookupSpeciesColor data species color = none) :
    (petInit data species color).states_map = none ∧
    (∀ m, load_deskpets_mapping data species color ≠ .ok m) := by
  constructor
  · unfold petInit
    rw [h]
  · intro m
    unfold load_deskpets_mapping
    unfold lookupSpeciesColor at h
    cases hsp : data.lookup species with
    | none => simp
    | some sd =>
        rw [hsp] at h
        simp only [Option.some_bind] at h
        dsimp only
        rw [h]
        simp
  
/-- Witness for C8 (amended) at a one-species catalog and the absent species
"dog". -/
theorem C8_config_error_witness :
    (petInit [("cat", ⟨[("black", [("idle", "idle.gif")])]⟩)] "dog" "black").states_map = none ∧
    (∀ m, load_deskpets_mapping [("cat", ⟨[("black", [("idle", "idle.gif")])]⟩)] "dog" "black" ≠
      .ok m) :=
  C8_config_error [("cat", ⟨[("black", [("idle", "idle.gif")])]⟩)] "dog" "black" rfl

/-! ## C9: the secondary-click callback -/

lemma updateState_snd (p : Pet) (inp : Inp) :
    (updateState p inp).2 = (rightClickPhase p inp).2 := by
  unfold updateState
  dsimp only
  split_ifs <;> rfl

lemma applyThrow_fst_consumed (p : Pet) :
    (applyThrow p).1.right_click_consumed = p.right_click_consumed := by
  unfold applyThrow
  dsimp only
  split_ifs <;> rfl

lemma beginDragPhase_consumed (p : Pet) (inp : Inp) :
    (beginDragPhase p inp).right_click_consumed = p.right_click_consumed := by
  unfold beginDragPhase
  split_ifs <;> rfl

lemma normalTick_consumed (p : Pet) (inp : Inp) :
    (normalTick p inp).right_click_consumed = p.right_click_consumed := by
  unfold normalTick
  dsimp only
  split_ifs with h1 h2 h3 h4
  · obtain ⟨w', st', h⟩ := squirrelClimb_shape p
    rw [h]
  · rfl
  · obtain ⟨w', st', h⟩ := goClimb_shape (stateNext p).1 inp.enterClimb inp.choice inp.coin
    rw [h]
    rfl
  · cases random_state (stateNext p).1.states_info standingExceptions inp.choice inp.coin <;>
      rfl
  · rfl

lemma tickCore_consumed (p : Pet) (inp : Inp) :
    (tickCore p inp).right_click_consumed = p.right_click_consumed := by
  unfold tickCore
  dsimp only
  split_ifs
  · exact applyThrow_fst_consumed p
  · rw [normalTick_consumed]
    exact applyThrow_fst_consumed p

lemma updateState_consumed (p : Pet) (inp : Inp) :
    (updateState p inp).1.right_click_consumed =
      (beginDragPhase (rightClickPhase p inp).1 inp).right_click_consumed := by
  unfold updateState
  dsimp only
  split_ifs with h1 h2
  · obtain ⟨v, h⟩ := dragMove_shape (beginDragPhase (rightClickPhase p inp).1 inp) inp
    rw [h]
  · rw [tickCore_consumed]
    rfl
  · rw [tickCore_consumed]

/-- A tick input pressing the secondary button with the pointer one pixel into
`basePet`'s box. -/
def rcInp : Inp :=
  { mouse_x := 801, mouse_y := 861, left_down := false, right_down := true,
    choice := 0, coin := true, enterClimb := false }

/-- Counterexample to C9 as stated: the callback is invoked on the tick where
the secondary button is observed *down* (a press — `right_down` is true on the
invoking tick), and on the actual release tick (button up, pointer still in
bounds, press never consumed) it is not invoked: the invocation is guarded by
`right_down` being true (pets.py line 131). -/
theorem C9_right_click_counterexample :
    rcInp.right_down = true ∧
    (updateState basePet rcInp).2 = true ∧
    ({ rcInp with right_down := false }).right_down = false ∧
    (updateState basePet { rcInp with right_down := false }).2 = false := by
  refine ⟨rfl, ?_, rfl, ?_⟩
  · rw [updateState_snd]
    norm_num [rightClickPhase, inBounds, basePet, rcInp]
  · rw [updateState_snd]
    norm_num [rightClickPhase, inBounds, basePet, rcInp]

/-- C9 (amended: press, not release): the external callback is invoked exactly
when the secondary button is observed down while the pointer is within the
agent's bounds, the press has not yet been consumed, and a main window is
attached; an invocation consumes the press, a consumed press never re-invokes
while the button stays down, and only a tick with the button up resets the
consumed flag — so the callback fires at most once per press-release cycle. -/
theorem C9_right_click (p : Pet) (inp : Inp) :
    ((updateState p inp).2 = true ↔
      (inp.right_down = true ∧ inBounds p inp.mouse_x inp.mouse_y = true ∧
       p.right_click_consumed = false ∧ p.has_main_window = true)) ∧
    ((updateState p inp).2 = true → (updateState p inp).1.right_click_consumed = true) ∧
    (p.right_click_consumed = true → inp.right_down = true →
      (updateState p inp).2 = false ∧ (updateState p inp).1.right_click_consumed = true) ∧
    (inp.right_down = false → (updateState p inp).1.right_click_consumed = false) := by
  rw [updateState_snd, updateState_consumed]
  rw [show (beginDragPhase (rightClickPhase p inp).1 inp).right_click_consumed =
        (rightClickPhase p inp).1.right_click_consumed from
      beginDragPhase_consumed (rightClickPhase p inp).1 inp]
  unfold rightClickPhase
  dsimp only
  cases hrd : inp.right_down <;> cases hin : inBounds p inp.mouse_x inp.mouse_y <;>
    cases hc : p.right_click_consumed <;> cases hmw : p.has_main_window <;>
      simp [hrd, hin, hc, hmw]

/-- Witness for C9 (amended): with the press already consumed and the button
still down, the callback is not invoked and the press stays consumed. -/
theorem C9_right_click_witness :
    (updateState { basePet with right_click_consumed := true } rcInp).2 = false ∧
    (updateState { basePet with right_click_consumed := true } rcInp).1.right_click_consumed =
      true :=
  (C9_right_click { basePet with right_click_consumed := true } rcInp).2.2.1 rfl rfl

/-! ## C10: fetch_undelivered -/

lemma markDelivered_text (t : ℚ) (r : Msg) : (markDelivered t r).text = r.text := rfl

lemma markDelivered_delivered (t : ℚ) (r : Msg) : (markDelivered t r).delivered = true := rfl

lemma fetchLoop_fst (t : ℚ) (rows : List Msg) :
    (fetchLoop t rows).1 =
      (rows.filter (fun r => !r.delivered && !(r.text.trim == ""))).map (markDelivered t) := by
  induction rows with
  | nil => rfl
  | cons r rs ih =>
      unfold fetchLoop
      dsimp only
      by_cases hd : r.delivered
      · rw [if_pos hd]
        simp [List.filter_cons, hd, ih]
      · rw [if_neg hd]
        dsimp only
        by_cases ht : r.text.trim = ""
        · rw [if_pos (show (markDelivered t r).text.trim = "" from ht)]
          simp [List.filter_cons, hd, ht, ih]
        · rw [if_neg (show ¬(markDelivered t r).text.trim = "" from ht)]
          simp [List.filter_cons, hd, ht, ih]

lemma fetchLoop_snd (t : ℚ) (rows : List Msg) :
    (fetchLoop t rows).2 =
      rows.map (fun r => if r.delivered then r else markDelivered t r) := by
  induction rows with
  | nil => rfl
  | cons r rs ih =>
      unfold fetchLoop
      dsimp only
      by_cases hd : r.delivered
      · rw [if_pos hd]
        simp [hd, ih]
      · rw [if_neg hd]
        simp [hd, ih]

lemma fetchLoop_fst_all_delivered (t' : ℚ) (rows : List Msg)
    (h : ∀ r ∈ rows, r.delivered = true) : (fetchLoop t' rows).1 = [] := by
  induction rows with
  | nil => rfl
  | cons r rs ih =>
      unfold fetchLoop
      dsimp only
      rw [if_pos (h r (List.mem_cons_self _ _))]
      exact ih (fun r' hr' => h r' (List.mem_cons_of_mem _ hr'))

lemma fetch_undelivered_snd_all_delivered (t : ℚ) (rows : List Msg) :
    ∀ r ∈ (fetch_undelivered t rows).2, r.delivered = true := by
  unfold fetch_undelivered
  split_ifs with he
  · intro r hr
    rw [List.isEmpty_iff] at he
    subst he
    simp at hr
  · intro r hr
    rw [fetchLoop_snd] at hr
    obtain ⟨a, -, rfl⟩ := List.mem_map.mp hr
    by_cases hd : a.delivered
    · simp [hd]
    · simp [hd, markDelivered_delivered]

lemma fetch_undelivered_fst_all_delivered (t' : ℚ) (rows : List Msg)
    (h : ∀ r ∈ rows, r.delivered = true) : (fetch_undelivered t' rows).1 = [] := by
  unfold fetch_undelivered
  split_ifs
  · rfl
  · exact fetchLoop_fst_all_delivered t' rows h

/-- C10: `fetch_undelivered` returns exactly the rows that were not yet marked
delivered and whose stripped text is non-empty (in file order, with their
delivered flag and timestamp now set); the rewritten file marks every
previously undelivered row as delivered with the current timestamp and keeps
already delivered rows as they are; consequently an immediately repeated call
on the rewritten inbox returns the empty list, so no message is returned
twice. -/
theorem C10_fetch_undelivered_exactly_once (t t' : ℚ) (rows : List Msg) :
    (fetch_undelivered t rows).1 =
      (rows.filter (fun r => !r.delivered && !(r.text.trim == ""))).map (markDelivered t) ∧
    (fetch_undelivered t rows).2 =
      rows.map (fun r => if r.delivered then r else markDelivered t r) ∧
    (fetch_undelivered t' (fetch_undelivered t rows).2).1 = [] := by
  refine ⟨?_, ?_, ?_⟩
  · unfold fetch_undelivered
    split_ifs with he
    · rw [List.isEmpty_iff] at he
      subst he
      rfl
    · exact fetchLoop_fst t rows
  · unfold fetch_undelivered
    split_ifs with he
    · rw [List.isEmpty_iff] at he
      subst he
      rfl
    · exact fetchLoop_snd t rows
  · exact fetch_undelivered_fst_all_delivered t' _
      (fetch_undelivered_snd_all_delivered t rows)

end DeskPets
